import Mathlib

/-!
Verification of the retrieval subsystem of a RAG chatbot repository:
chunking (`document_processor._split_text_into_chunks`), the fallback hash
embedding (`rag_system._simple_text_embedding`), brute-force similarity
search (`database.search_similar_chunks` and `database._cosine_similarity`),
and context assembly (`rag_system.get_relevant_context` together with
`web_search_integration.search_and_enhance`).

Python strings are modelled as `List Char`, Python ints as `Int`/`Nat`, and
Python floats as exact rationals `ℚ` (float rounding is abstracted away;
the one float-specific behaviour that matters — NaN from a 0/0 division —
is modelled explicitly with `Option`).  Exceptions are modelled with
`Option`/explicit fault flags.  All definitions are executable.
-/

/-- Python whitespace predicate: the characters stripped by `str.strip()`
and used as separators by `str.split()`. -/
def pyIsSpace (c : Char) : Bool :=
  c = ' ' || c = '\t' || c = '\n' || c = '\r' || c = '\x0b' || c = '\x0c'

/-- Models Python `str.strip()`: drop whitespace from both ends. -/
def pyStrip (l : List Char) : List Char :=
  ((l.dropWhile pyIsSpace).reverse.dropWhile pyIsSpace).reverse

/-- Models the Python operator `needle in hay` on strings
(substring containment). -/
def containsSub (needle : List Char) : List Char → Bool
  | [] => needle.isPrefixOf []
  | c :: t => needle.isPrefixOf (c :: t) || containsSub needle t

/-- Helper for `pyWords`: scans the text, accumulating the current word
in reverse in `acc`. -/
def pyWordsAux : List Char → List Char → List (List Char)
  | [], acc => if acc = [] then [] else [acc.reverse]
  | c :: t, acc =>
    if pyIsSpace c then
      if acc = [] then pyWordsAux t [] else acc.reverse :: pyWordsAux t []
    else pyWordsAux t (c :: acc)

/-- Models Python `str.split()` with no argument: split on runs of
whitespace, discarding empty pieces. -/
def pyWords (l : List Char) : List (List Char) :=
  pyWordsAux l []

/-- Models Python `text.rfind(c, s, e)` for a single-character needle:
the highest index `i` with `s ≤ i < min e (length text)` holding `c`,
and `-1` when there is none. -/
def pyRfind (text : List Char) (c : Char) (s e : Nat) : Int :=
  match ((List.range (min e text.length)).filter
      (fun i => decide (s ≤ i) && decide (text.getD i ' ' = c))).getLast? with
  | some i => (i : Int)
  | none => -1

/-- Models Python slicing `text[s:e]` for `0 ≤ s, e`. -/
def pySlice (text : List Char) (s e : Nat) : List Char :=
  (text.drop s).take (e - s)

/-! ## Chunker: `DocumentProcessor._split_text_into_chunks`
(src/document_processor.py lines 387-421, with `self.chunk_size` and
`self.chunk_overlap` as parameters; the repository sets them to 500/50). -/

/-- One iteration's chunk end: candidate `start + chunk_size`, snapped
backward to the last period (inclusive) or, failing that, the last space
strictly inside `(start, end)` — but only when the candidate end lies
strictly before the end of the text. -/
def chunkEnd (chunkSize : Nat) (text : List Char) (start : Nat) : Nat :=
  let e := start + chunkSize
  if e < text.length then
    let sentenceEnd := pyRfind text '.' start e
    if (start : Int) < sentenceEnd then (sentenceEnd + 1).toNat
    else
      let wordEnd := pyRfind text ' ' start e
      if (start : Int) < wordEnd then wordEnd.toNat
      else e
  else e

/-- The advance step `start = end - overlap` with the guard
`if start <= 0: start = end`. -/
def nextStart (overlap : Int) (e : Nat) : Nat :=
  let s : Int := (e : Int) - overlap
  if s ≤ 0 then e else s.toNat

/-- The scan loop of `_split_text_into_chunks`, with explicit fuel:
`none` means the loop did not finish within `fuel` iterations. -/
def splitLoop (chunkSize : Nat) (overlap : Int) (text : List Char) :
    Nat → Nat → Option (List (List Char))
  | 0, _ => none
  | fuel + 1, start =>
    if start < text.length then
      let e := chunkEnd chunkSize text start
      let chunk := pyStrip (pySlice text start e)
      match splitLoop chunkSize overlap text fuel (nextStart overlap e) with
      | none => none
      | some rest => some (if chunk = [] then rest else chunk :: rest)
    else some []

/-- Models `_split_text_into_chunks`: texts no longer than `chunk_size`
are returned as a single chunk verbatim; longer texts go through the
scan loop.  `none` means the loop ran longer than `fuel` iterations. -/
def splitTextIntoChunks (chunkSize : Nat) (overlap : Int) (fuel : Nat)
    (text : List Char) : Option (List (List Char)) :=
  if text.length ≤ chunkSize then some [text]
  else splitLoop chunkSize overlap text fuel 0

/-- The scan loop of `_split_text_into_chunks` terminates: some amount of
fuel suffices to finish. -/
def chunkerTerminates (chunkSize : Nat) (overlap : Int) (text : List Char) : Prop :=
  ∃ fuel chunks, splitTextIntoChunks chunkSize overlap fuel text = some chunks

example : pyWords (String.toList (" hello  world ")) =
    [String.toList ("hello"), String.toList ("world")] := by decide

example : pyStrip (String.toList (" a ")) = [('a' : Char)] := by decide

example : splitTextIntoChunks 10 3 50 (String.toList ("abcdefgh")) =
    some [String.toList ("abcdefgh")] := by decide

example : pyRfind (String.toList ("ab cd.ef")) '.' 0 8 = 5 := by decide

example : pyRfind (String.toList ("ab cd.ef")) '.' 6 8 = -1 := by decide

example : chunkEnd 10 (String.toList ("abcdefghij klmnopqrstuvwxyz")) 7 = 10 := by decide

example : nextStart 3 10 = 7 := by decide

example : nextStart 10 10 = 10 := by decide

/-! ## Embedder: `RAGSystem` (src/rag_system.py lines 12-71) -/

/-- The dimension a word is accumulated at in `_simple_text_embedding`:
`hash(word) % 382` (non-negative, since Python `%` with a positive divisor
is Euclidean, as is `Int.emod`) shifted past the two reserved dimensions.
The word hash itself is a parameter: Python's builtin `hash` on `str` is
salted per process. -/
def wordIndex (h : List Char → Int) (w : List Char) : Nat :=
  ((h w) % 382).toNat + 2

/-- Models `RAGSystem._simple_text_embedding` (floats as exact rationals):
lower-case the text, start from `np.zeros(384)`, and if the word list is
non-empty set dimension 0 to `min(len(words)/100, 1.0)`, dimension 1 to
`min(len(text)/1000, 1.0)`, and for each of the first 50 words add
`1/len(words)` at dimension `hash(word) % 382 + 2`. -/
def simpleTextEmbedding (h : List Char → Int) (text : List Char) : List ℚ :=
  let text := text.map Char.toLower
  let words := pyWords text
  let e : List ℚ := List.replicate 384 0
  if words = [] then e
  else
    let e := e.set 0 (min ((words.length : ℚ) / 100) 1)
    let e := e.set 1 (min ((text.length : ℚ) / 1000) 1)
    (words.take 50).foldl
      (fun e w => e.set (wordIndex h w) (e.getD (wordIndex h w) 0 + 1 / (words.length : ℚ))) e

/-- The value of `RAGSystem.embedding_model` after loading: either the
sentence-transformer model (modelled as its `encode` function, which may
fail, i.e. raise — `none`) or the string sentinel `"simple"`. -/
inductive EmbBackend where
  | simple : EmbBackend
  | learned : (List Char → Option (List ℚ)) → EmbBackend

/-- Models `RAGSystem.load_embedding_model`: `available` is
`SENTENCE_TRANSFORMERS_AVAILABLE`, and `loadResult` is the outcome of the
`SentenceTransformer(...)` constructor (`none` models it raising, which
the `except` branch turns into the `"simple"` sentinel). -/
def loadEmbeddingModel (available : Bool)
    (loadResult : Option (List Char → Option (List ℚ))) : Option EmbBackend :=
  if available then
    match loadResult with
    | some enc => some (EmbBackend.learned enc)
    | none => some EmbBackend.simple
  else some EmbBackend.simple

/-- Models `RAGSystem.get_embedding`: `none` models the
`raise Exception("Embedding model not loaded")` branch; a failing
`encode` call falls back to the simple embedding. -/
def getEmbedding (h : List Char → Int) (model : Option EmbBackend)
    (text : List Char) : Option (List ℚ) :=
  match model with
  | none => none
  | some EmbBackend.simple => some (simpleTextEmbedding h text)
  | some (EmbBackend.learned enc) =>
    match enc text with
    | some v => some v
    | none => some (simpleTextEmbedding h text)

/-! ## ChunkStore: `DatabaseManager` (src/database.py lines 97-132;
`postgres_database.py` lines 100-122 are identical on these methods) -/

/-- Dot product of two vectors, `np.dot` (trailing entries of the longer
vector are ignored; stored and query embeddings share length 384). -/
def dotQ (a b : List ℚ) : ℚ :=
  (List.zipWith (fun x y => x * y) a b).sum

/-- Squared Euclidean norm: `np.linalg.norm a` is its square root. -/
def normSq (a : List ℚ) : ℚ := dotQ a a

/-- Models `DatabaseManager._cosine_similarity`, which evaluates
`np.dot(a, b) / (np.linalg.norm(a) * np.linalg.norm(b))` with no guard.
The denominator `‖a‖ * ‖b‖` is zero exactly when `normSq a * normSq b = 0`;
numpy then divides `0.0 / 0.0`, producing NaN (a floating-point fault),
modelled here as `none`.  Otherwise the (irrational) similarity value is
`d / √p` for the returned pair `some (d, p)`. -/
def cosineSimilarity (a b : List ℚ) : Option (ℚ × ℚ) :=
  if normSq a * normSq b = 0 then none
  else some (dotQ a b, normSq a * normSq b)

/-- A search result row: `(filename, content, similarity score)`. -/
abbrev ScoredHit : Type := String × String × ℚ

/-- Ordering used by `similarities.sort(key=lambda x: x[2], reverse=True)`:
descending by score. -/
def simGE (x y : ScoredHit) : Prop := y.2.2 ≤ x.2.2

instance : DecidableRel simGE :=
  fun x y => inferInstanceAs (Decidable (y.2.2 ≤ x.2.2))

instance : IsTotal ScoredHit simGE := ⟨fun x y => le_total y.2.2 x.2.2⟩

instance : IsTrans ScoredHit simGE := ⟨fun _ _ _ h1 h2 => le_trans h2 h1⟩

/-- The per-row scoring pass of `search_similar_chunks`: every stored row
`(filename, content, embedding)` is scored against the query embedding.
The score function `sim` stands for the float value of
`self._cosine_similarity(query_embedding, embedding)`; the search
algorithm is independent of the scores it produces. -/
def scoredRows (sim : List ℚ → List ℚ → ℚ) (q : List ℚ)
    (rows : List (String × String × List ℚ)) : List ScoredHit :=
  rows.map (fun r => (r.1, r.2.1, sim q r.2.2))

/-- Models `DatabaseManager.search_similar_chunks`: empty store returns
`[]`; otherwise score all rows, sort descending by score with Python's
stable sort (insertion sort is stable and sorts, hence produces the same
list), and keep the first `top_k`. -/
def searchSimilarChunks (sim : List ℚ → List ℚ → ℚ) (q : List ℚ)
    (rows : List (String × String × List ℚ)) (topK : Nat) : List ScoredHit :=
  if rows = [] then []
  else ((scoredRows sim q rows).insertionSort simGE).take topK

example : searchSimilarChunks (fun _ _ => 0) [] [] 5 = [] := by decide

example :
    searchSimilarChunks (fun _ e => e.headI) []
      [("a", "x", [1]), ("b", "y", [2]), ("c", "z", [2])] 2 =
      [("b", "y", 2), ("c", "z", 2)] := by decide


/-! ## Augmentation: `WebSearchIntegrator`
(src/web_search_integration.py lines 19-328)

The large knowledge prose constants below are abridged to their headers
and opening lines: the claims only depend on which constant the keyword
dispatch selects and on the constants being non-empty (as the full
literals in the source are), never on their prose. -/

/-- Lower-casing as Python `str.lower()` (ASCII case, which covers
every string this repository compares). -/
def pyLower (s : String) : String := String.mk (s.toList.map Char.toLower)

/-- Python `str.strip()` on `String`. -/
def pyStripStr (s : String) : String := String.mk (pyStrip s.toList)

/-- Python substring test `needle in hay`. -/
def strIn (needle hay : String) : Bool := containsSub needle.toList hay.toList

/-- Python `any(term in query_lower for term in terms)`. -/
def matchAny (terms : List String) (q : String) : Bool :=
  terms.any (fun t => strIn t q)

def mlTerms : List String :=
  ["machine learning", "ai", "artificial intelligence", "neural network",
   "deep learning", "algorithm", "model", "training",
   "how does machine learning", "how machine learning"]

def renewableTerms : List String :=
  ["renewable energy", "solar", "wind", "clean energy", "sustainability"]

def climateTerms : List String := ["climate change", "global warming", "carbon"]

def softwareTerms : List String :=
  ["programming", "coding", "software", "development", "python", "javascript"]

def dataTerms : List String :=
  ["data science", "analytics", "statistics", "data analysis", "big data"]

def businessTerms : List String :=
  ["business", "marketing", "finance", "economics", "management"]

def healthTerms : List String :=
  ["health", "medicine", "biology", "healthcare", "medical"]

def educationTerms : List String :=
  ["education", "learning", "teaching", "school", "university"]

def mlKnowledge : String :=
  "**Machine Learning & AI**\n\nMachine learning is a method of data analysis that automates analytical model building."

def renewableKnowledge : String :=
  "**Renewable Energy & Sustainability**\n\nRenewable energy comes from natural sources that are replenished faster than they are consumed."

def climateKnowledge : String :=
  "**Climate Change & Environmental Science**\n\nClimate change refers to long-term shifts in global or regional climate patterns."

def softwareKnowledge : String :=
  "**Software Development**\n\nSoftware development is the process of creating, designing, deploying, and maintaining software applications and systems."

def dataScienceKnowledge : String :=
  "**Data Science & Analytics**\n\nData science is an interdisciplinary field that uses scientific methods, processes, algorithms, and systems."

def businessKnowledge : String :=
  "**Business & Economics**\n\nBusiness involves the creation, exchange, and management of value through goods and services."

def healthKnowledge : String :=
  "**Health & Medical Sciences**\n\nHealthcare encompasses the prevention, diagnosis, treatment, and management of illness and disease."

def educationKnowledge : String :=
  "**Education & Learning Sciences**\n\nEducation is the process of facilitating learning and skill development through instruction and experience."

/-- The generic fallback answer returned when no topic matches and no
document context exists (abridged prose, non-empty like the source). -/
def genericAnswer : String :=
  "**Answer:**\n\nI can help explain this topic using my knowledge base. Please ask me about any specific topic and I will provide detailed explanations."

def exTechnology : String :=
  "For example, smartphones combine multiple technologies: processors for computation, touchscreens for input, wireless radios for communication, and sensors for environmental awareness."

def exProcess : String :=
  "For instance, the scientific method follows a systematic process: observation, hypothesis formation, experimentation, data analysis, and conclusion drawing."

def exSystem : String :=
  "Consider an ecosystem as a system: producers convert sunlight to energy, consumers eat them, and decomposers recycle nutrients."

/-- The `knowledge_addition` keyword dispatch of
`_enhance_with_knowledge`: the first topic whose term list matches the
lower-cased query, or the empty string. -/
def knowledgeAddition (ql : String) : String :=
  if matchAny mlTerms ql then mlKnowledge
  else if matchAny renewableTerms ql then renewableKnowledge
  else if matchAny climateTerms ql then climateKnowledge
  else if matchAny softwareTerms ql then softwareKnowledge
  else if matchAny dataTerms ql then dataScienceKnowledge
  else if matchAny businessTerms ql then businessKnowledge
  else if matchAny healthTerms ql then healthKnowledge
  else if matchAny educationTerms ql then educationKnowledge
  else ""

/-- Models `WebSearchIntegrator._enhance_with_knowledge`: keyword dispatch
on the lower-cased query chooses a knowledge addition; otherwise document
context, if any, becomes the answer; otherwise the generic answer. -/
def enhanceWithKnowledge (query context : String) : String :=
  let ql := pyLower query
  let ka := knowledgeAddition ql
  if ka ≠ "" then
    let ec := pyStripStr ka
    if context ≠ "" ∧ pyStripStr context ≠ "" ∧ strIn ("From ") context then
      ec ++ "\n\n**From Your Documents:**\n" ++ context.take 400
    else ec
  else if context ≠ "" ∧ pyStripStr context ≠ "" then
    "**Answer Based on Your Documents:**\n\n" ++ context
  else genericAnswer

/-- Models `WebSearchIntegrator.get_contextual_examples`. -/
def getContextualExamples (query : String) : List String :=
  let ql := pyLower query
  if matchAny (["explain", "how does", "what is"]) ql then
    if strIn ("technology") ql then [exTechnology]
    else if strIn ("process") ql then [exProcess]
    else if strIn ("system") ql then [exSystem]
    else []
  else []

/-- The fixed citation list appended by `search_and_enhance`. -/
def citationSources : List String :=
  ["Internal Knowledge Base", "Domain Expertise Repository",
   "Best Practices Database", "Contextual Examples"]

/-- Models `WebSearchIntegrator.search_and_enhance`.  `fault = true`
models an exception inside the `try` block; the `except` branch returns
`(context or "", [])`, which for a string argument is `(context, [])`. -/
def searchAndEnhance (fault : Bool) (query context : String) : String × List String :=
  if fault then (context, [])
  else
    let enhanced := enhanceWithKnowledge query context
    let examples := getContextualExamples query
    let enhanced :=
      if examples ≠ [] then
        enhanced ++ "\n\n**Contextual Examples:**" ++
          String.join (examples.enum.map (fun p => "\n" ++ toString (p.1 + 1) ++ ". " ++ p.2))
      else enhanced
    let sources := if context ≠ "" then ("User Documents") :: citationSources
      else citationSources
    (enhanced, sources)

/-! ## Context assembly: `RAGSystem.get_relevant_context`
(src/rag_system.py lines 73-128) -/

/-- The store contents visible to `get_relevant_context`: document chunk
rows `(filename, content, embedding)` and conversation turns
`(user_message, assistant_response)`, most recent first. -/
structure RAGDb where
  rows : List (String × String × List ℚ)
  convs : List (String × String)

/-- Models `DatabaseManager.get_recent_conversations` (rows already
ordered most-recent-first by the SQL query). -/
def getRecentConversations (db : RAGDb) (limit : Nat) : List (String × String) :=
  db.convs.take limit

/-- Python `s[:n] + "..." if len(s) > n else s`. -/
def pyTruncate (n : Nat) (s : String) : String :=
  if n < s.length then s.take n ++ "..." else s

/-- The `Previous Q{i+1}` / `Previous A{i+1}` lines added for the recent
conversation turns. -/
def historyLines (recent : List (String × String)) : List String :=
  (recent.enum.map (fun p =>
    ["Previous Q" ++ toString (p.1 + 1) ++ ": " ++ pyTruncate 100 p.2.1,
     "Previous A" ++ toString (p.1 + 1) ++ ": " ++ pyTruncate 150 p.2.2])).flatten

/-- Models the two-decimal rendering `f"{similarity:.2f}"`; the rendered
digits are never inspected by any claim. -/
def formatSim (q : ℚ) : String := toString q

/-- Steps 1-2 of `get_relevant_context`: document hits above the 0.3
threshold (formatted bodies and source labels) and, when requested and
present, the recent-conversation lines and their source label.  `sim`
stands for the float value of `_cosine_similarity` and `embed` for
`get_embedding` (neither can alter the control flow modelled here). -/
def assembleParts (sim : List ℚ → List ℚ → ℚ) (embed : String → List ℚ)
    (db : RAGDb) (query : String) (topK : Nat) (includeHist : Bool) :
    List String × List String :=
  let qEmb := embed query
  let similar := searchSimilarChunks sim qEmb db.rows topK
  let hits := similar.filter (fun r => decide ((3 : ℚ) / 10 < r.2.2))
  let contextParts := hits.map (fun r => "From " ++ r.1 ++ ": " ++ r.2.1)
  let sources := hits.map (fun r => r.1 ++ " (similarity: " ++ formatSim r.2.2 ++ ")")
  if includeHist then
    let recent := getRecentConversations db 2
    if recent ≠ [] then
      (contextParts ++ ("\nRecent conversation context:") :: historyLines recent,
       sources ++ ["Recent conversations"])
    else (contextParts, sources)
  else (contextParts, sources)

/-- The body built before augmentation:
`base_context = "\n\n".join(context_parts) if context_parts else ""`. -/
def baseContext (contextParts : List String) : String :=
  if contextParts ≠ [] then "\n\n".intercalate contextParts else ""

/-- Models `RAGSystem.get_relevant_context`.  `webAvailable = false`
models the `ImportError` fallback (web integration module missing);
`fault = true` models an exception inside `search_and_enhance`.  The
model is a total function: the modelled control flow never lets an
exception escape (the outer `except` that returns
`("Error retrieving context.", [])` is unreachable in this pure model). -/
def getRelevantContext (sim : List ℚ → List ℚ → ℚ) (embed : String → List ℚ)
    (db : RAGDb) (query : String) (topK : Nat)
    (includeHist webAvailable fault : Bool) : String × List String :=
  let parts := assembleParts sim embed db query topK includeHist
  let contextParts := parts.1
  let sources := parts.2
  if webAvailable then
    let base := baseContext contextParts
    let enhanced := searchAndEnhance fault query base
    let sources := if enhanced.2 ≠ [] then sources ++ enhanced.2 else sources
    (enhanced.1, sources)
  else
    (if contextParts ≠ [] then "\n\n".intercalate contextParts
     else "No relevant context found.", sources)

example :
    getRelevantContext (fun _ _ => 0) (fun _ => []) ⟨[], []⟩ ("zzz") 3
      true true false = (genericAnswer, citationSources) := by
  rfl

example :
    getRelevantContext (fun _ _ => 0) (fun _ => []) ⟨[], []⟩ ("zzz") 3
      true false false = ("No relevant context found.", []) := by
  rfl

/-! ## Lemmas about the chunker -/

/-- The result of `pyRfind` is always below `min e (length text)`
(`-1` trivially is, the found index lies in the searched range). -/
theorem pyRfind_lt (text : List Char) (c : Char) (s e : Nat) :
    pyRfind text c s e < ((min e text.length : Nat) : Int) := by
  unfold pyRfind
  cases hlast : ((List.range (min e text.length)).filter
      (fun i => decide (s ≤ i) && decide (text.getD i ' ' = c))).getLast? with
  | none =>
    show (-1 : Int) < ((min e text.length : Nat) : Int)
    omega
  | some i =>
    show (i : Int) < ((min e text.length : Nat) : Int)
    obtain ⟨ys, hys⟩ := List.getLast?_eq_some_iff.mp hlast
    have hmem : i ∈ (List.range (min e text.length)).filter
        (fun i => decide (s ≤ i) && decide (text.getD i ' ' = c)) := by
      rw [hys]; simp
    have := List.mem_range.mp (List.mem_filter.mp hmem).1
    exact_mod_cast this

/-- When `c` does not occur in `text`, `pyRfind` returns `-1`. -/
theorem pyRfind_of_not_mem (text : List Char) (c : Char) (s e : Nat)
    (h : c ∉ text) : pyRfind text c s e = -1 := by
  unfold pyRfind
  have hnil : ((List.range (min e text.length)).filter
      (fun i => decide (s ≤ i) && decide (text.getD i ' ' = c))) = [] := by
    apply List.filter_eq_nil_iff.mpr
    intro i hi
    have hlt : i < text.length := by
      have := List.mem_range.mp hi
      omega
    have hget : text.getD i ' ' ∈ text := by
      rw [List.getD_eq_getElem?_getD]
      have : text[i]? = some text[i] := List.getElem?_eq_getElem hlt
      rw [this]
      exact List.getElem_mem hlt
    simp only [Bool.and_eq_true, decide_eq_true_eq, not_and]
    intro _ hc
    exact h (hc ▸ hget)
  rw [hnil]
  rfl

/-- The chunk end never exceeds the raw candidate `start + chunk_size`:
boundary snapping only moves the end backward. -/
theorem chunkEnd_le (chunkSize : Nat) (text : List Char) (start : Nat) :
    chunkEnd chunkSize text start ≤ start + chunkSize := by
  simp only [chunkEnd]
  split_ifs with h1 h2 h3
  · have := pyRfind_lt text '.' start (start + chunkSize)
    omega
  · have := pyRfind_lt text ' ' start (start + chunkSize)
    omega
  · omega
  · omega

/-- With a positive chunk size, the chunk end lies strictly past `start`. -/
theorem chunkEnd_gt (chunkSize : Nat) (text : List Char) (start : Nat)
    (hcs : 0 < chunkSize) : start < chunkEnd chunkSize text start := by
  simp only [chunkEnd]
  split_ifs with h1 h2 h3
  · omega
  · omega
  · omega
  · omega

/-- On text with no period and no space, both boundary searches fail and
the chunk end is exactly `start + chunk_size`. -/
theorem chunkEnd_of_no_sep (chunkSize : Nat) (text : List Char) (start : Nat)
    (hsep : ∀ c ∈ text, c ≠ '.' ∧ c ≠ ' ') :
    chunkEnd chunkSize text start = start + chunkSize := by
  have hdot : ('.' : Char) ∉ text := fun hm => (hsep _ hm).1 rfl
  have hsp : (' ' : Char) ∉ text := fun hm => (hsep _ hm).2 rfl
  simp only [chunkEnd]
  rw [pyRfind_of_not_mem text '.' start (start + chunkSize) hdot,
    pyRfind_of_not_mem text ' ' start (start + chunkSize) hsp]
  split_ifs with h1 h2
  · omega
  · rfl
  · rfl

/-- Forward progress of one scan iteration, in the two safe regimes:
non-positive overlap, or overlap below the chunk size on text with no
boundary characters. -/
theorem nextStart_progress (chunkSize : Nat) (overlap : Int) (text : List Char)
    (hcs : 0 < chunkSize)
    (hsafe : overlap ≤ 0 ∨
      (overlap < (chunkSize : Int) ∧ ∀ c ∈ text, c ≠ '.' ∧ c ≠ ' ')) (start : Nat) :
    start + 1 ≤ nextStart overlap (chunkEnd chunkSize text start) := by
  rcases hsafe with hov | ⟨hov, hsep⟩
  · have hgt := chunkEnd_gt chunkSize text start hcs
    simp only [nextStart]
    split_ifs with h
    · omega
    · omega
  · rw [chunkEnd_of_no_sep chunkSize text start hsep]
    simp only [nextStart]
    split_ifs with h
    · omega
    · omega

/-- One-step unfolding of the scan loop. -/
theorem splitLoop_succ (chunkSize : Nat) (overlap : Int) (text : List Char)
    (fuel start : Nat) :
    splitLoop chunkSize overlap text (fuel + 1) start =
      if start < text.length then
        match splitLoop chunkSize overlap text fuel
            (nextStart overlap (chunkEnd chunkSize text start)) with
        | none => none
        | some rest =>
          some (if pyStrip (pySlice text start (chunkEnd chunkSize text start)) = []
            then rest
            else pyStrip (pySlice text start (chunkEnd chunkSize text start)) :: rest)
      else some [] := rfl

/-- With enough fuel relative to the remaining text, a scan loop whose
every iteration makes forward progress finishes. -/
theorem splitLoop_isSome (chunkSize : Nat) (overlap : Int) (text : List Char)
    (hprog : ∀ start, start + 1 ≤ nextStart overlap (chunkEnd chunkSize text start)) :
    ∀ k start, text.length ≤ start + k →
      (splitLoop chunkSize overlap text (k + 1) start).isSome := by
  intro k
  induction k with
  | zero =>
    intro start hle
    have hnot : ¬ start < text.length := by omega
    simp [splitLoop, hnot]
  | succ n ih =>
    intro start hle
    by_cases hlt : start < text.length
    · have hnext := hprog start
      have := ih (nextStart overlap (chunkEnd chunkSize text start)) (by omega)
      obtain ⟨rest, hrest⟩ := Option.isSome_iff_exists.mp this
      rw [splitLoop_succ, if_pos hlt, hrest]
      simp
    · simp [splitLoop, hlt]

/-! ## Claim C1 -/

/-- The concrete input on which the scan loop never finishes:
after the first iteration `start` is stuck at 7 forever. -/
def cexText : List Char := String.toList ("abcdefghij klmnopqrstuvwxyz")

/-- From position 7 the loop repeats itself: the chunk end snaps back to
the space at index 10 and `start = 10 - 3 = 7` again. -/
theorem splitLoop_stuck_seven :
    ∀ fuel, splitLoop 10 3 cexText fuel 7 = none := by
  intro fuel
  induction fuel with
  | zero => rfl
  | succ n ih =>
    have h1 : chunkEnd 10 cexText 7 = 10 := by decide
    have h2 : nextStart 3 10 = 7 := by decide
    have h3 : 7 < cexText.length := by decide
    simp [splitLoop, h1, h2, h3, ih]

/-- The first iteration moves `start` from 0 to 7, after which the loop
is stuck. -/
theorem splitLoop_stuck_zero :
    ∀ fuel, splitLoop 10 3 cexText fuel 0 = none := by
  intro fuel
  cases fuel with
  | zero => rfl
  | succ n =>
    have h1 : chunkEnd 10 cexText 0 = 10 := by decide
    have h2 : nextStart 3 10 = 7 := by decide
    have h3 : 0 < cexText.length := by decide
    simp [splitLoop, h1, h2, h3, splitLoop_stuck_seven n]

/-- Claim C1, refuted: `_split_text_into_chunks` does **not** terminate for
every text, every `chunk_size > 0` and every overlap.  On the 27-character
text `"abcdefghij klmnopqrstuvwxyz"` with `chunk_size = 10` and
`overlap = 3` the scan loop runs forever: from `start = 7` the word-boundary
snap sets `end = 10` and `start = end - overlap = 7` again, and the forced
`start = end` fallback never fires because it only triggers when
`start <= 0`.  (The failure does not even need `overlap >= chunk_size`.) -/
theorem c1_counterexample :
    (0 : Nat) < 10 ∧ ¬ chunkerTerminates 10 3 cexText := by
  constructor
  · decide
  · rintro ⟨fuel, chunks, h⟩
    have hlen : ¬ cexText.length ≤ 10 := by decide
    unfold splitTextIntoChunks at h
    rw [if_neg hlen, splitLoop_stuck_zero fuel] at h
    exact Option.noConfusion h

/-- Claim C1, amended: the forced `start = end` fallback fires only when
`start <= 0` and does not guarantee forward progress in general.  The
split loop does terminate for every text when the overlap is
non-positive, and when the overlap is smaller than the chunk size on
text containing no period and no space (so that boundary snapping never
moves the chunk end backward). -/
theorem c1_amended_termination (chunkSize : Nat) (overlap : Int)
    (text : List Char) (hcs : 0 < chunkSize)
    (hsafe : overlap ≤ 0 ∨
      (overlap < (chunkSize : Int) ∧ ∀ c ∈ text, c ≠ '.' ∧ c ≠ ' ')) :
    chunkerTerminates chunkSize overlap text := by
  by_cases hshort : text.length ≤ chunkSize
  · exact ⟨0, [text], by simp [splitTextIntoChunks, hshort]⟩
  · have hs := splitLoop_isSome chunkSize overlap text
      (nextStart_progress chunkSize overlap text hcs hsafe) text.length 0 (by omega)
    obtain ⟨chunks, hchunks⟩ := Option.isSome_iff_exists.mp hs
    exact ⟨text.length + 1, chunks, by simp [splitTextIntoChunks, hshort, hchunks]⟩

/-- Witness for the amended C1 on a concrete input. -/
theorem c1_amended_termination_witness :
    chunkerTerminates 2 1 (String.toList ("abcde")) :=
  c1_amended_termination 2 1 (String.toList ("abcde")) (by decide)
    (Or.inr ⟨by decide, by decide⟩)

/-! ## Claims C5 and C9 -/

/-- Stripping only shrinks a chunk. -/
theorem pyStrip_length_le (l : List Char) : (pyStrip l).length ≤ l.length := by
  unfold pyStrip
  calc ((l.dropWhile pyIsSpace).reverse.dropWhile pyIsSpace).reverse.length
      = ((l.dropWhile pyIsSpace).reverse.dropWhile pyIsSpace).length := by
        rw [List.length_reverse]
    _ ≤ (l.dropWhile pyIsSpace).reverse.length :=
        (List.dropWhile_sublist pyIsSpace).length_le
    _ = (l.dropWhile pyIsSpace).length := by rw [List.length_reverse]
    _ ≤ l.length := (List.dropWhile_sublist pyIsSpace).length_le

/-- A slice `text[s:e]` has length at most `e - s`. -/
theorem pySlice_length_le (text : List Char) (s e : Nat) :
    (pySlice text s e).length ≤ e - s := by
  unfold pySlice
  rw [List.length_take]
  omega

/-- Every chunk emitted by the scan loop has length at most the chunk
size. -/
theorem splitLoop_chunk_length (chunkSize : Nat) (overlap : Int)
    (text : List Char) :
    ∀ fuel start l, splitLoop chunkSize overlap text fuel start = some l →
      ∀ c ∈ l, c.length ≤ chunkSize := by
  intro fuel
  induction fuel with
  | zero => intro start l h; exact Option.noConfusion h
  | succ n ih =>
    intro start l h
    rw [splitLoop_succ] at h
    by_cases hlt : start < text.length
    · rw [if_pos hlt] at h
      cases hrec : splitLoop chunkSize overlap text n
          (nextStart overlap (chunkEnd chunkSize text start)) with
      | none => rw [hrec] at h; exact Option.noConfusion h
      | some rest =>
        rw [hrec] at h
        have hrest := ih _ rest hrec
        have hchunk : (pyStrip (pySlice text start (chunkEnd chunkSize text start))).length
            ≤ chunkSize := by
          calc (pyStrip (pySlice text start (chunkEnd chunkSize text start))).length
              ≤ (pySlice text start (chunkEnd chunkSize text start)).length :=
                pyStrip_length_le _
            _ ≤ chunkEnd chunkSize text start - start := pySlice_length_le _ _ _
            _ ≤ chunkSize := by
                have := chunkEnd_le chunkSize text start
                omega
        intro c hc
        have hl : l = if pyStrip (pySlice text start (chunkEnd chunkSize text start)) = []
            then rest
            else pyStrip (pySlice text start (chunkEnd chunkSize text start)) :: rest := by
          exact Option.some.inj h.symm
        rw [hl] at hc
        split_ifs at hc with hemp
        · exact hrest c hc
        · rcases List.mem_cons.mp hc with rfl | hc
          · exact hchunk
          · exact hrest c hc
    · rw [if_neg hlt] at h
      have : l = [] := (Option.some.inj h).symm
      subst this
      intro c hc
      exact absurd hc (List.not_mem_nil c)

/-- Claim C9, confirmed: every chunk returned by
`_split_text_into_chunks` has length at most `chunk_size` — the candidate
end never exceeds `start + chunk_size`, boundary snapping only moves the
end backward (`chunkEnd_le`), and stripping only shrinks the chunk. -/
theorem c9_chunk_length_bound (chunkSize : Nat) (overlap : Int) (fuel : Nat)
    (text : List Char) (chunks : List (List Char))
    (h : splitTextIntoChunks chunkSize overlap fuel text = some chunks) :
    ∀ c ∈ chunks, c.length ≤ chunkSize := by
  unfold splitTextIntoChunks at h
  split_ifs at h with hshort
  · have : chunks = [text] := (Option.some.inj h).symm
    subst this
    intro c hc
    rcases List.mem_singleton.mp hc with rfl
    exact hshort
  · exact splitLoop_chunk_length chunkSize overlap text fuel 0 chunks h

/-- Witness for C9 on a concrete run of the chunker. -/
theorem c9_chunk_length_bound_witness :
    splitTextIntoChunks 5 2 20 (String.toList ("abcdefgh")) =
        some [String.toList ("abcde"), String.toList ("defgh"), String.toList ("gh")] ∧
      ∀ c ∈ [String.toList ("abcde"), String.toList ("defgh"), String.toList ("gh")],
        c.length ≤ 5 :=
  ⟨by decide, c9_chunk_length_bound 5 2 20 (String.toList ("abcdefgh")) _ (by decide)⟩

/-- Claim C5, refuted as stated: on the short-text path the chunker
returns the text verbatim, not trimmed.  For `text = " a "` and
`chunk_size = 3` it returns `[" a "]`, not `["a"]`. -/
theorem c5_counterexample :
    (String.toList (" a ") ≠ [] ∧ (String.toList (" a ")).length ≤ 3) ∧
      splitTextIntoChunks 3 0 1 (String.toList (" a ")) ≠
        some [pyStrip (String.toList (" a "))] := by
  constructor
  · constructor
    · decide
    · decide
  · decide

/-- Claim C5, amended: for every non-empty text with
`len(text) <= chunk_size`, `_split_text_into_chunks` returns exactly one
chunk, and that chunk is `text` itself (unstripped). -/
theorem c5_amended_short_text (chunkSize : Nat) (overlap : Int) (fuel : Nat)
    (text : List Char) (hne : text ≠ []) (hlen : text.length ≤ chunkSize) :
    splitTextIntoChunks chunkSize overlap fuel text = some [text] := by
  unfold splitTextIntoChunks
  rw [if_pos hlen]

/-- Witness for the amended C5 on a concrete input. -/
theorem c5_amended_short_text_witness :
    splitTextIntoChunks 3 0 1 (String.toList (" a ")) =
      some [String.toList (" a ")] :=
  c5_amended_short_text 3 0 1 (String.toList (" a ")) (by decide) (by decide)

/-! ## Lemmas about the fallback embedding -/

/-- The accumulation dimension always lies in `[2, 383]`. -/
theorem wordIndex_mem_range (h : List Char → Int) (w : List Char) :
    2 ≤ wordIndex h w ∧ wordIndex h w < 384 := by
  unfold wordIndex
  have h1 : 0 ≤ (h w) % 382 := Int.emod_nonneg _ (by norm_num)
  have h2 : (h w) % 382 < 382 := Int.emod_lt_of_pos _ (by norm_num)
  omega

/-- Number of words among `ws` that the hash sends to dimension `j`
(collisions at one dimension sum, so the accumulated value is this count
times the increment). -/
def hitCount (h : List Char → Int) (ws : List (List Char)) (j : Nat) : Nat :=
  (ws.filter (fun w => decide (wordIndex h w = j))).length

/-- The accumulation fold preserves the vector length. -/
theorem foldl_set_length (h : List Char → Int) (q : ℚ) :
    ∀ (ws : List (List Char)) (e : List ℚ),
      (ws.foldl (fun e w =>
        e.set (wordIndex h w) (e.getD (wordIndex h w) 0 + q)) e).length = e.length := by
  intro ws
  induction ws with
  | nil => intro e; rfl
  | cons w t ih =>
    intro e
    rw [List.foldl_cons, ih, List.length_set]

/-- Entry `j` after the accumulation fold: the starting entry plus the
number of hits at `j` times the increment `q`. -/
theorem foldl_set_getD (h : List Char → Int) (q : ℚ) :
    ∀ (ws : List (List Char)) (e : List ℚ), e.length = 384 → ∀ j : Nat,
      (ws.foldl (fun e w =>
          e.set (wordIndex h w) (e.getD (wordIndex h w) 0 + q)) e).getD j 0 =
        e.getD j 0 + (hitCount h ws j : ℚ) * q := by
  intro ws
  induction ws with
  | nil =>
    intro e _ j
    simp [hitCount]
  | cons w t ih =>
    intro e hlen j
    rw [List.foldl_cons]
    have hlen' : (e.set (wordIndex h w) (e.getD (wordIndex h w) 0 + q)).length = 384 := by
      rw [List.length_set, hlen]
    rw [ih _ hlen' j]
    have hset : (e.set (wordIndex h w) (e.getD (wordIndex h w) 0 + q)).getD j 0 =
        if wordIndex h w = j then e.getD j 0 + q else e.getD j 0 := by
      rw [List.getD_eq_getElem?_getD, List.getElem?_set]
      by_cases hij : wordIndex h w = j
      · rw [if_pos hij]
        have : wordIndex h w < e.length := by
          rw [hlen]; exact (wordIndex_mem_range h w).2
        rw [if_pos this, if_pos hij]
        subst hij
        rfl
      · rw [if_neg hij, if_neg hij, List.getD_eq_getElem?_getD]
    have hcount : (hitCount h (w :: t) j : ℚ) =
        (if wordIndex h w = j then (hitCount h t j : ℚ) + 1 else (hitCount h t j : ℚ)) := by
      unfold hitCount
      rw [List.filter_cons]
      by_cases hij : wordIndex h w = j
      · simp [hij]
      · simp [hij]
    rw [hset, hcount]
    by_cases hij : wordIndex h w = j
    · rw [if_pos hij, if_pos hij]; ring
    · rw [if_neg hij, if_neg hij]

/-- The vector before the fold: zeros except dimensions 0 and 1. -/
theorem pre_vector_getD (v0 v1 : ℚ) (j : Nat) :
    (((List.replicate 384 (0 : ℚ)).set 0 v0).set 1 v1).getD j 0 =
      if j = 0 then v0 else if j = 1 then v1 else 0 := by
  rw [List.getD_eq_getElem?_getD, List.getElem?_set, List.getElem?_set]
  by_cases h1 : j = 1
  · subst h1
    rw [if_pos rfl]
    have hlt : (1 : Nat) < ((List.replicate 384 (0 : ℚ)).set 0 v0).length := by
      rw [List.length_set, List.length_replicate]
      omega
    rw [if_pos hlt]
    simp
  · by_cases h0 : j = 0
    · subst h0
      have e1 : ¬ ((1 : Nat) = 0) := by omega
      rw [if_neg e1, if_pos rfl]
      have hlt : (0 : Nat) < (List.replicate 384 (0 : ℚ)).length := by
        rw [List.length_replicate]
        omega
      rw [if_pos hlt]
      simp
    · have e1 : ¬ (1 = j) := fun hh => h1 hh.symm
      have e0 : ¬ (0 = j) := fun hh => h0 hh.symm
      rw [if_neg e1, if_neg e0, List.getElem?_replicate]
      by_cases hlt : j < 384
      · rw [if_pos hlt]
        simp [h0, h1]
      · rw [if_neg hlt]
        simp [h0, h1]

/-- Entry characterization of `_simple_text_embedding` for non-empty word
lists, dimensions 2 and above: the hit count at that dimension times
`1 / word_count`. -/
theorem simpleTextEmbedding_getD_high (h : List Char → Int) (text : List Char)
    (hw : pyWords (text.map Char.toLower) ≠ []) (j : Nat) (hj2 : 2 ≤ j) :
    (simpleTextEmbedding h text).getD j 0 =
      (hitCount h ((pyWords (text.map Char.toLower)).take 50) j : ℚ) *
        (1 / ((pyWords (text.map Char.toLower)).length : ℚ)) := by
  simp only [simpleTextEmbedding]
  rw [if_neg hw]
  rw [foldl_set_getD h _ _ _ (by rw [List.length_set, List.length_set, List.length_replicate]) j]
  rw [pre_vector_getD]
  have hj0 : ¬ (j = 0) := by omega
  have hj1 : ¬ (j = 1) := by omega
  rw [if_neg hj0, if_neg hj1]
  ring

/-- Entry 0 of `_simple_text_embedding` for non-empty word lists. -/
theorem simpleTextEmbedding_getD_zero (h : List Char → Int) (text : List Char)
    (hw : pyWords (text.map Char.toLower) ≠ []) :
    (simpleTextEmbedding h text).getD 0 0 =
      min (((pyWords (text.map Char.toLower)).length : ℚ) / 100) 1 := by
  simp only [simpleTextEmbedding]
  rw [if_neg hw]
  rw [foldl_set_getD h _ _ _ (by rw [List.length_set, List.length_set, List.length_replicate]) 0]
  rw [pre_vector_getD]
  have hcount : hitCount h ((pyWords (text.map Char.toLower)).take 50) 0 = 0 := by
    unfold hitCount
    rw [List.length_eq_zero]
    apply List.filter_eq_nil_iff.mpr
    intro w _
    have := (wordIndex_mem_range h w).1
    simp
    omega
  rw [hcount]
  simp

/-- Entry 1 of `_simple_text_embedding` for non-empty word lists. -/
theorem simpleTextEmbedding_getD_one (h : List Char → Int) (text : List Char)
    (hw : pyWords (text.map Char.toLower) ≠ []) :
    (simpleTextEmbedding h text).getD 1 0 =
      min ((text.length : ℚ) / 1000) 1 := by
  simp only [simpleTextEmbedding]
  rw [if_neg hw]
  rw [foldl_set_getD h _ _ _ (by rw [List.length_set, List.length_set, List.length_replicate]) 1]
  rw [pre_vector_getD]
  have hcount : hitCount h ((pyWords (text.map Char.toLower)).take 50) 1 = 0 := by
    unfold hitCount
    rw [List.length_eq_zero]
    apply List.filter_eq_nil_iff.mpr
    intro w _
    have := (wordIndex_mem_range h w).1
    simp
    omega
  rw [hcount]
  rw [List.length_map]
  simp

/-- The embedding always has length 384. -/
theorem simpleTextEmbedding_length (h : List Char → Int) (text : List Char) :
    (simpleTextEmbedding h text).length = 384 := by
  simp only [simpleTextEmbedding]
  split_ifs with hw
  · rw [List.length_replicate]
  · rw [foldl_set_length, List.length_set, List.length_set, List.length_replicate]

/-- Empty word list gives the all-zero vector. -/
theorem simpleTextEmbedding_of_no_words (h : List Char → Int) (text : List Char)
    (hw : pyWords (text.map Char.toLower) = []) :
    simpleTextEmbedding h text = List.replicate 384 0 := by
  simp only [simpleTextEmbedding]
  rw [if_pos hw]

/-- Lower-casing fixes whitespace characters. -/
theorem toLower_of_space (c : Char) (hc : pyIsSpace c) : Char.toLower c = c := by
  have : c = ' ' ∨ c = '\t' ∨ c = '\n' ∨ c = '\r' ∨ c = '\x0b' ∨ c = '\x0c' := by
    simp [pyIsSpace] at hc
    tauto
  rcases this with rfl | rfl | rfl | rfl | rfl | rfl <;> decide

/-- Splitting all-whitespace text yields no words. -/
theorem pyWordsAux_all_space :
    ∀ l : List Char, (∀ c ∈ l, pyIsSpace c) → pyWordsAux l [] = [] := by
  intro l
  induction l with
  | nil => intro _; rfl
  | cons c t ih =>
    intro hall
    have hc : pyIsSpace c := hall c (List.mem_cons_self c t)
    simp only [pyWordsAux, hc]
    simp
    exact ih (fun d hd => hall d (List.mem_cons_of_mem c hd))

/-- Empty or whitespace-only text yields the all-zero vector (and, the
model being a total function, the embedding never raises). -/
theorem simpleTextEmbedding_all_space (h : List Char → Int) (text : List Char)
    (hsp : ∀ c ∈ text, pyIsSpace c) :
    simpleTextEmbedding h text = List.replicate 384 0 := by
  apply simpleTextEmbedding_of_no_words
  apply pyWordsAux_all_space
  intro c hc
  rcases List.mem_map.mp hc with ⟨d, hd, rfl⟩
  rw [toLower_of_space d (hsp d hd)]
  exact hsp d hd

/-! ## Claims C7, C4, C10, C3 -/

/-- Claim C7, confirmed: for every input text the fallback embedding has
fixed length 384; every word accumulates at a dimension in `[2, 383]`;
whitespace-only (or empty) text yields the all-zero vector (and the
model, being a total function, cannot raise); and for non-empty word
lists dimension 0 is `min(word_count/100, 1)`, dimension 1 is
`min(char_count/1000, 1)`, and each dimension `j ≥ 2` holds the number of
the first 50 words hashing to `j` times `1/word_count` (collisions sum). -/
theorem c7_simple_embedding_spec (h : List Char → Int) (text : List Char) :
    (simpleTextEmbedding h text).length = 384 ∧
    (∀ w : List Char, 2 ≤ wordIndex h w ∧ wordIndex h w < 384) ∧
    ((∀ c ∈ text, pyIsSpace c) → simpleTextEmbedding h text = List.replicate 384 0) ∧
    (pyWords (text.map Char.toLower) ≠ [] →
      (simpleTextEmbedding h text).getD 0 0 =
          min (((pyWords (text.map Char.toLower)).length : ℚ) / 100) 1 ∧
        (simpleTextEmbedding h text).getD 1 0 = min ((text.length : ℚ) / 1000) 1 ∧
        ∀ j, 2 ≤ j →
          (simpleTextEmbedding h text).getD j 0 =
            (hitCount h ((pyWords (text.map Char.toLower)).take 50) j : ℚ) *
              (1 / ((pyWords (text.map Char.toLower)).length : ℚ))) := by
  refine ⟨simpleTextEmbedding_length h text, wordIndex_mem_range h,
    simpleTextEmbedding_all_space h text, fun hw => ⟨?_, ?_, ?_⟩⟩
  · exact simpleTextEmbedding_getD_zero h text hw
  · exact simpleTextEmbedding_getD_one h text hw
  · intro j hj2
    exact simpleTextEmbedding_getD_high h text hw j hj2

/-- Witness for C7 on a concrete two-word text. -/
theorem c7_simple_embedding_spec_witness :
    (simpleTextEmbedding (fun _ => 0) (String.toList ("a b"))).getD 0 0 =
      min (((pyWords ((String.toList ("a b")).map Char.toLower)).length : ℚ) / 100) 1 :=
  ((c7_simple_embedding_spec (fun _ => 0) (String.toList ("a b"))).2.2.2 (by decide)).1

/-- Claim C4, code bug: the fallback embedding depends on the word hash
function.  The source uses Python's builtin `hash`, which is salted per
process for strings, so two runs with different salts produce different
vectors for the same text — the spec explicitly requires a fixed-seed or
content-based hash here.  Formally: two hash functions differing on the
single word of the text give different embeddings. -/
theorem c4_hash_dependence :
    simpleTextEmbedding (fun _ => 0) (String.toList ("a")) ≠
      simpleTextEmbedding (fun _ => 1) (String.toList ("a")) := by
  intro heq
  have hne : pyWords ((String.toList ("a")).map Char.toLower) ≠ [] := by decide
  have h0 := simpleTextEmbedding_getD_high (fun _ => 0) (String.toList ("a")) hne 2 (by omega)
  have h1 := simpleTextEmbedding_getD_high (fun _ => 1) (String.toList ("a")) hne 2 (by omega)
  have heq2 : (simpleTextEmbedding (fun _ => 0) (String.toList ("a"))).getD 2 0 =
      (simpleTextEmbedding (fun _ => 1) (String.toList ("a"))).getD 2 0 := by
    rw [heq]
  rw [h0, h1] at heq2
  have hc0 : hitCount (fun _ => 0)
      ((pyWords ((String.toList ("a")).map Char.toLower)).take 50) 2 = 1 := by decide
  have hc1 : hitCount (fun _ => 1)
      ((pyWords ((String.toList ("a")).map Char.toLower)).take 50) 2 = 0 := by decide
  have hlen : (pyWords ((String.toList ("a")).map Char.toLower)).length = 1 := by decide
  rw [hc0, hc1, hlen] at heq2
  norm_num at heq2

/-- Claim C10, confirmed: `load_embedding_model` assigns a non-`None`
value on every path (a model object, or the `"simple"` sentinel both when
the library is unavailable and when the constructor raises), so the
`"Embedding model not loaded"` raise branch of `get_embedding` is
unreachable after construction and `get_embedding` always returns a
vector. -/
theorem c10_model_always_loaded (available : Bool)
    (loadResult : Option (List Char → Option (List ℚ))) (h : List Char → Int)
    (text : List Char) :
    loadEmbeddingModel available loadResult ≠ none ∧
      (getEmbedding h (loadEmbeddingModel available loadResult) text).isSome := by
  cases available with
  | false => simp [loadEmbeddingModel, getEmbedding]
  | true =>
    cases loadResult with
    | none => simp [loadEmbeddingModel, getEmbedding]
    | some enc =>
      refine ⟨by simp [loadEmbeddingModel], ?_⟩
      simp only [loadEmbeddingModel, getEmbedding]
      cases henc : enc text <;> simp [henc]

/-- Claim C3, code bug: `_cosine_similarity` divides by
`np.linalg.norm(a) * np.linalg.norm(b)` with no guard, so whenever one
vector is all-zero the denominator is zero and numpy produces NaN
(modelled `none`) — not the similarity 0 that the spec contract
requires. -/
theorem c3_zero_vector_similarity_fault (a b : List ℚ)
    (hz : (∀ x ∈ a, x = 0) ∨ (∀ x ∈ b, x = 0)) :
    cosineSimilarity a b = none := by
  have key : ∀ c : List ℚ, (∀ x ∈ c, x = 0) → normSq c = 0 := by
    intro c hc
    unfold normSq dotQ
    rw [List.zipWith_same]
    apply List.sum_eq_zero
    intro x hx
    rcases List.mem_map.mp hx with ⟨y, hy, rfl⟩
    rw [hc y hy]
    ring
  rcases hz with hza | hzb
  · simp [cosineSimilarity, key a hza]
  · simp [cosineSimilarity, key b hzb]

/-- Witness for C3: the all-zero 384-dimensional embedding (the embedding
of whitespace-only text) compared against itself faults. -/
theorem c3_zero_vector_similarity_fault_witness :
    cosineSimilarity (List.replicate 384 0) (List.replicate 384 0) = none :=
  c3_zero_vector_similarity_fault _ _
    (Or.inl (fun _ hx => List.eq_of_mem_replicate hx))

/-! ## Claim C6: the search algorithm -/

/-- Filtering for one fixed score commutes with an ordered insert: the
inserted element lands before every element of equal score (orderedInsert
walks past strictly greater scores only), which is exactly stability. -/
theorem filter_orderedInsert_score (s : ℚ) (a : ScoredHit) (l : List ScoredHit) :
    (l.orderedInsert simGE a).filter (fun x => decide (x.2.2 = s)) =
      if a.2.2 = s then a :: l.filter (fun x => decide (x.2.2 = s))
      else l.filter (fun x => decide (x.2.2 = s)) := by
  rw [List.orderedInsert_eq_take_drop, List.filter_append, List.filter_cons]
  by_cases ha : a.2.2 = s
  · rw [if_pos ha]
    have hnil : (l.takeWhile (fun b => decide (¬ simGE a b))).filter
        (fun x => decide (x.2.2 = s)) = [] := by
      apply List.filter_eq_nil_iff.mpr
      intro b hb
      have hgt := List.mem_takeWhile_imp hb
      simp only [decide_eq_true_eq] at hgt
      unfold simGE at hgt
      simp only [decide_eq_true_eq]
      intro hbs
      exact hgt (le_of_eq (ha ▸ hbs))
    rw [hnil, List.nil_append, if_pos (by simpa using ha)]
    congr 1
    conv_rhs => rw [← List.takeWhile_append_dropWhile
      (fun b => decide (¬ simGE a b)) l]
    rw [List.filter_append, hnil, List.nil_append]
  · rw [if_neg ha, if_neg (by simpa using ha)]
    conv_rhs => rw [← List.takeWhile_append_dropWhile
      (fun b => decide (¬ simGE a b)) l]
    rw [List.filter_append]

/-- Stability of the modelled sort: within one score class, sorting
preserves the original order of hits. -/
theorem filter_insertionSort_score (s : ℚ) (l : List ScoredHit) :
    (l.insertionSort simGE).filter (fun x => decide (x.2.2 = s)) =
      l.filter (fun x => decide (x.2.2 = s)) := by
  induction l with
  | nil => rfl
  | cons a t ih =>
    rw [List.insertionSort, filter_orderedInsert_score s a (t.insertionSort simGE),
      ih, List.filter_cons]
    by_cases ha : a.2.2 = s
    · rw [if_pos ha, if_pos (by simpa using ha)]
    · rw [if_neg ha, if_neg (by simpa using ha)]

/-- Claim C6, confirmed: `search_similar_chunks` scores every stored row
against the query (the scored list is a permutation of the full sorted
list), sorts descending by score (Python's stable sort; insertion sort
with the same total order is stable and sorted, hence produces the same
list), breaks ties by insertion order (the filter equality per score
class), returns the first `top_k`, and returns `[]` — not an error — on
an empty store.  The score function abstracts the float value of
`_cosine_similarity`; no part of the algorithm depends on the scores it
produces. -/
theorem c6_search_spec (sim : List ℚ → List ℚ → ℚ) (q : List ℚ)
    (rows : List (String × String × List ℚ)) (topK : Nat) :
    (rows = [] → searchSimilarChunks sim q rows topK = []) ∧
    ∃ full : List ScoredHit,
      full.Perm (scoredRows sim q rows) ∧
      List.Sorted simGE full ∧
      (∀ s : ℚ, full.filter (fun x => decide (x.2.2 = s)) =
        (scoredRows sim q rows).filter (fun x => decide (x.2.2 = s))) ∧
      searchSimilarChunks sim q rows topK = full.take topK ∧
      (searchSimilarChunks sim q rows topK).length ≤ topK := by
  constructor
  · intro h
    simp [searchSimilarChunks, h]
  · refine ⟨(scoredRows sim q rows).insertionSort simGE,
      List.perm_insertionSort simGE _, List.sorted_insertionSort simGE _,
      fun s => filter_insertionSort_score s _, ?_, ?_⟩
    · by_cases h : rows = []
      · subst h
        simp [searchSimilarChunks, scoredRows]
      · simp [searchSimilarChunks, h]
    · unfold searchSimilarChunks
      split_ifs with h
      · simp
      · rw [List.length_take]
        omega

/-- Witness for C6: the empty-store branch at a concrete instantiation. -/
theorem c6_search_spec_witness :
    searchSimilarChunks (fun _ _ => 0) [] [] 3 = [] :=
  (c6_search_spec (fun _ _ => 0) [] [] 3).1 rfl

/-! ## Claims C2 and C8: context assembly -/

set_option maxRecDepth 8192 in
/-- Each selected knowledge blob survives stripping non-empty. -/
theorem knowledgeAddition_cases (ql : String) :
    knowledgeAddition ql = "" ∨ 0 < (pyStripStr (knowledgeAddition ql)).length := by
  unfold knowledgeAddition
  split_ifs
  · right; decide
  · right; decide
  · right; decide
  · right; decide
  · right; decide
  · right; decide
  · right; decide
  · right; decide
  · left; rfl

set_option maxRecDepth 8192 in
/-- With no document context, every branch of
`_enhance_with_knowledge` returns non-empty text: a stripped knowledge
blob or the generic answer. -/
theorem enhanceWithKnowledge_empty_context_pos (q : String) :
    0 < (enhanceWithKnowledge q "").length := by
  rcases knowledgeAddition_cases (pyLower q) with hk | hk
  · simp only [enhanceWithKnowledge, hk]
    decide
  · simp only [enhanceWithKnowledge]
    split_ifs with h1 h2 h3
    · exact absurd rfl h2.1
    · exact hk
    · exact absurd rfl h3.1
    · decide

/-- With no document context and no fault, `search_and_enhance` returns
exactly the four knowledge-base citations and a non-empty body. -/
theorem searchAndEnhance_empty_context (q : String) :
    (searchAndEnhance false q "").2 = citationSources ∧
      (searchAndEnhance false q "").1 ≠ "" := by
  constructor
  · simp [searchAndEnhance]
  · intro hc
    have hlen : (searchAndEnhance false q "").1.length = 0 := by
      rw [hc]
      rfl
    have hpos := enhanceWithKnowledge_empty_context_pos q
    simp only [searchAndEnhance, Bool.false_eq_true, if_false] at hlen
    split_ifs at hlen with hex
    · rw [String.length_append, String.length_append] at hlen
      omega
    · omega

/-- When no similarity hit exceeds the 0.3 threshold and there are no
stored conversations, steps 1-2 of `get_relevant_context` build an empty
body and an empty source list. -/
theorem assembleParts_empty (sim : List ℚ → List ℚ → ℚ) (embed : String → List ℚ)
    (db : RAGDb) (query : String) (topK : Nat) (includeHist : Bool)
    (hhits : ∀ r ∈ searchSimilarChunks sim (embed query) db.rows topK,
      r.2.2 ≤ 3 / 10)
    (hconv : db.convs = []) :
    assembleParts sim embed db query topK includeHist = ([], []) := by
  have hfilter : (searchSimilarChunks sim (embed query) db.rows topK).filter
      (fun r => decide ((3 : ℚ) / 10 < r.2.2)) = [] := by
    apply List.filter_eq_nil_iff.mpr
    intro r hr
    simpa using not_lt.mpr (hhits r hr)
  simp only [assembleParts, hfilter, List.map_nil]
  cases includeHist <;> simp [getRecentConversations, hconv]

/-- Claim C2, amended and proved: on a query with no hit above the
threshold and no stored conversations, `get_relevant_context` does not
return `("", [])`.  With the web-integration module importable it
returns the knowledge-augmented body (non-empty) with the four
knowledge-base citation sources; with the import failing it returns the
placeholder `"No relevant context found."` with no sources.  Neither
case is an error. -/
theorem c2_amended_empty_retrieval (sim : List ℚ → List ℚ → ℚ)
    (embed : String → List ℚ) (db : RAGDb) (query : String) (topK : Nat)
    (includeHist : Bool)
    (hhits : ∀ r ∈ searchSimilarChunks sim (embed query) db.rows topK,
      r.2.2 ≤ 3 / 10)
    (hconv : db.convs = []) :
    getRelevantContext sim embed db query topK includeHist true false =
        ((searchAndEnhance false query "").1, citationSources) ∧
      (getRelevantContext sim embed db query topK includeHist true false).1 ≠ "" ∧
      getRelevantContext sim embed db query topK includeHist false false =
        ("No relevant context found.", []) := by
  have hap := assembleParts_empty sim embed db query topK includeHist hhits hconv
  obtain ⟨hsrc, hbody⟩ := searchAndEnhance_empty_context query
  refine ⟨?_, ?_, ?_⟩
  · simp only [getRelevantContext, hap, baseContext]
    simp [hsrc, citationSources]
  · simp only [getRelevantContext, hap, baseContext]
    simpa using hbody
  · simp [getRelevantContext, hap]

/-- Witness for the amended C2 at a concrete query on the empty store. -/
theorem c2_amended_empty_retrieval_witness :
    getRelevantContext (fun _ _ => 0) (fun _ => []) ⟨[], []⟩ ("zzz") 3 true true false =
        ((searchAndEnhance false ("zzz") "").1, citationSources) ∧
      (getRelevantContext (fun _ _ => 0) (fun _ => []) ⟨[], []⟩ ("zzz") 3 true true false).1 ≠ "" ∧
      getRelevantContext (fun _ _ => 0) (fun _ => []) ⟨[], []⟩ ("zzz") 3 true false false =
        ("No relevant context found.", []) :=
  c2_amended_empty_retrieval (fun _ _ => 0) (fun _ => []) ⟨[], []⟩ ("zzz") 3 true
    (by simp [searchSimilarChunks]) rfl

/-- Claim C2, refuted as stated: on the empty store
`get_relevant_context` does not return `("", [])` — the web-knowledge
augmentation always rewrites the body and appends its four citation
sources. -/
theorem c2_counterexample :
    getRelevantContext (fun _ _ => 0) (fun _ => []) ⟨[], []⟩ ("zzz") 3
      true true false ≠ ("", []) := by
  intro hc
  have heval : getRelevantContext (fun _ _ => 0) (fun _ => []) ⟨[], []⟩ ("zzz") 3
      true true false = (genericAnswer, citationSources) := rfl
  rw [heval] at hc
  have := congrArg Prod.snd hc
  exact absurd this (by decide)

/-- Claim C8, amended and proved: when the augmentation step raises, the
assembler returns the pre-augmentation body unchanged with only the
sources collected so far (the `except` branch of `search_and_enhance`
returns `(context, [])` and the empty source list extends nothing); when
the augmentation module is unavailable (`ImportError`) the same holds
with one exception — an empty pre-augmentation body is replaced by the
placeholder `"No relevant context found."`.  In all cases the model is a
total function: no exception escapes. -/
theorem c8_amended_degradation (sim : List ℚ → List ℚ → ℚ)
    (embed : String → List ℚ) (db : RAGDb) (query : String) (topK : Nat)
    (includeHist : Bool) :
    (getRelevantContext sim embed db query topK includeHist true true =
        (baseContext (assembleParts sim embed db query topK includeHist).1,
         (assembleParts sim embed db query topK includeHist).2)) ∧
    ((assembleParts sim embed db query topK includeHist).1 ≠ [] →
      getRelevantContext sim embed db query topK includeHist false false =
        (baseContext (assembleParts sim embed db query topK includeHist).1,
         (assembleParts sim embed db query topK includeHist).2)) ∧
    ((assembleParts sim embed db query topK includeHist).1 = [] →
      getRelevantContext sim embed db query topK includeHist false false =
        ("No relevant context found.",
         (assembleParts sim embed db query topK includeHist).2)) := by
  refine ⟨?_, ?_, ?_⟩
  · simp [getRelevantContext, searchAndEnhance]
  · intro h
    simp [getRelevantContext, baseContext, h]
  · intro h
    simp [getRelevantContext, h]

/-- Witness for the amended C8: the unavailable-with-empty-body branch at
a concrete input. -/
theorem c8_amended_degradation_witness :
    getRelevantContext (fun _ _ => 0) (fun _ => []) ⟨[], []⟩ ("q") 3 true false false =
      ("No relevant context found.",
       (assembleParts (fun _ _ => 0) (fun _ => []) ⟨[], []⟩ ("q") 3 true).2) :=
  (c8_amended_degradation (fun _ _ => 0) (fun _ => []) ⟨[], []⟩ ("q") 3 true).2.2 rfl

/-- Claim C8, refuted as stated: when augmentation is unavailable and the
pre-augmentation body is empty, the assembler substitutes the
placeholder instead of returning the body unchanged. -/
theorem c8_counterexample :
    baseContext (assembleParts (fun _ _ => 0) (fun _ => []) ⟨[], []⟩ ("q") 3 true).1 = "" ∧
      (getRelevantContext (fun _ _ => 0) (fun _ => []) ⟨[], []⟩ ("q") 3 true false false).1 ≠
        baseContext (assembleParts (fun _ _ => 0) (fun _ => []) ⟨[], []⟩ ("q") 3 true).1 := by
  constructor
  · rfl
  · intro hc
    have h1 : (getRelevantContext (fun _ _ => 0) (fun _ => []) ⟨[], []⟩ ("q") 3
        true false false).1 = "No relevant context found." := rfl
    have h2 : baseContext (assembleParts (fun _ _ => 0) (fun _ => []) ⟨[], []⟩
        ("q") 3 true).1 = "" := rfl
    rw [h1, h2] at hc
    exact absurd hc (by decide)
